import Mathlib

/-!
Verification of the consensus core of the versatus repository against its
natural-language specification.  Rust source functions are shallowly embedded
as executable Lean definitions: machine integers become Nat (no overflow is
reachable in the modelled paths), fallible code returns Except or Option, and
stateful methods pass their state explicitly.  Code of the repository that is
not part of the extracted sources (external crates such as the DKG engine,
the signature provider and the claim hashing primitives) is modelled from the
specification; each such definition is marked in its doc comment.
-/

/-- Association-list lookup, the embedding of map lookups (HashMap::get,
BTreeMap::get, LinkedHashMap::get) used throughout the sources. -/
def alookup {α β : Type} [DecidableEq α] (k : α) : List (α × β) → Option β
  | [] => none
  | (k2, v) :: rest => if k = k2 then some v else alookup k rest

/-- Embedding of `map.entry(k).or_insert_with(|| v)`: insert only when the key
is absent, leaving the map untouched otherwise (first-writer-wins). -/
def entryOrInsert {α β : Type} [DecidableEq α] (k : α) (v : β) (m : List (α × β)) :
    List (α × β) :=
  if (alookup k m).isSome then m else m ++ [(k, v)]

/-- Embedding of `BTreeMap::insert` on a Nat-keyed map represented as an
association list sorted strictly by key: a pair with an existing key replaces
the stored value, a new key is placed at its ordered position. -/
def btreeInsert {α : Type} (k : Nat) (v : α) : List (Nat × α) → List (Nat × α)
  | [] => [(k, v)]
  | (k2, v2) :: rest =>
    if k < k2 then (k, v) :: (k2, v2) :: rest
    else if k = k2 then (k, v) :: rest
    else (k2, v2) :: btreeInsert k v rest

/-- Embedding of collecting an iterator of `(key(a), val(a))` pairs into a
`BTreeMap`, starting from the map `m`. -/
def btreeInsertAll {α β : Type} (key : α → Nat) (val : α → β)
    (l : List α) (m : List (Nat × β)) : List (Nat × β) :=
  l.foldl (fun acc a => btreeInsert (key a) (val a) acc) m

/-- Exact Nat ceiling of `pct/100 * n`.  The source computes
`((n as f32) * 0.pct).ceil() as usize`; for the list lengths reachable here
the f32 computation coincides with this exact ceiling. -/
def ceilPct (pct n : Nat) : Nat := (pct * n + 99) / 100

/-- `u32::MAX` as a Nat. -/
def u32MAX : Nat := 4294967295

/-- Eligibility tag of a claim (vrrb_core::claim::Eligibility). -/
inductive Eligibility : Type
  | Miner
  | Farmer
  | Harvester
  | Ineligible
deriving DecidableEq, Repr

/-- Modelled from the spec (§3): the vrrb_core claim, a participation ticket
with owner public key, address, self hash, eligibility tag, nonce and stake.
The vrrb_core crate is not among the extracted sources; only the fields the
quorum code reads are carried.  Election hashing (get_election_result) is an
external hash and is passed to the functions that use it as an explicit
argument `er`. -/
structure Claim where
  publicKey : String
  address : String
  hash : Nat
  eligibility : Eligibility
  nonce : Nat
  stake : Nat
deriving DecidableEq, Repr

/-- Error type of the quorum crate (quorum.rs, QuorumError). -/
inductive QuorumError : Type
  | InvalidSeedError
  | InvalidPointerSumError (claims : List Claim)
  | InvalidChildBlockError
  | InsufficientNodesError
  | NoSeedError
  | ClaimError
deriving DecidableEq, Repr

/-- The Quorum struct (quorum.rs). -/
structure Quorum where
  quorum_seed : Nat
  master_pubkeys : List String
  quorum_pk : String
  election_block_height : Nat
deriving DecidableEq, Repr

/-- Embeds Quorum::check_validity: the child block height must be positive. -/
def Quorum.check_validity (height : Nat) : Bool := 0 < height

/-- Embeds Quorum::get_eligible_claims (quorum.rs lines 124-143).  The filter
keeps a claim only when its eligibility equals Harvester AND equals Farmer,
exactly as written in the source. -/
def Quorum.get_eligible_claims (claims : List Claim) :
    Except QuorumError (List Claim) :=
  let eligible_claims := claims.filter (fun claim =>
    claim.eligibility == Eligibility.Harvester
      && claim.eligibility == Eligibility.Farmer)
  if eligible_claims.length < 20 then
    .error .InsufficientNodesError
  else
    .ok eligible_claims

/-- Embeds Quorum::generate_seed (quorum.rs lines 59-77).  The external
vrrb_vrf VVRF is not among the extracted sources, so its successive
`generate_u64` outputs are modelled as the list `draws` and the outcome of
`VVRF::verify_seed` as the flag `vrfOk`.  The re-roll loop
`while random_number < u32::MAX as u64` keeps drawing until a draw of at
least u32::MAX appears; `none` models the loop running past the modelled
draws. -/
def Quorum.generate_seed (height : Nat) (vrfOk : Bool) (draws : List Nat) :
    Option (Except QuorumError Nat) :=
  if ¬ Quorum.check_validity height then some (.error .InvalidChildBlockError)
  else if ¬ vrfOk then some (.error .InvalidSeedError)
  else
    match draws.find? (fun r => u32MAX ≤ r) with
    | some r => some (.ok r)
    | none => none

/-- Embeds Quorum::get_final_quorum (quorum.rs lines 147-174).  `er` models
Claim::get_election_result (a U256-valued hash living in the external
vrrb_core crate).  The BTreeMap collected from the claim iterator is the
sorted association list built by `btreeInsertAll`; the source slice
`pubkeys[0..num_claims]` is the identity because the guard ensures at least
`num_claims` distinct election results, which the take already delivers. -/
def Quorum.get_final_quorum (er : Claim → Nat → Nat) (q : Quorum)
    (claims : List Claim) : Except QuorumError Quorum :=
  if q.quorum_seed = 0 then .error .NoSeedError
  else
    let num_claims := ceilPct 51 claims.length
    let election_results :=
      btreeInsertAll (fun claim => er claim q.quorum_seed) id claims []
    if election_results.length < ceilPct 65 claims.length then
      .error (.InvalidPointerSumError claims)
    else
      let pubkeys :=
        (election_results.map (fun p => p.2.publicKey)).take num_claims
      .ok { q with master_pubkeys := pubkeys }

/-- Error reasons of the block crate (invalid.rs). -/
inductive InvalidBlockErrorReason : Type
  | NotTallestChain
  | BlockOutOfSequence
  | InvalidClaim
  | InvalidLastHash
  | InvalidStateHash
  | InvalidBlockHeight
  | InvalidBlockNonce
  | InvalidBlockReward
  | InvalidTxns
  | InvalidClaimPointers
  | General
deriving DecidableEq, Repr

/-- Error struct of the block crate (invalid.rs). -/
structure InvalidBlockError where
  details : InvalidBlockErrorReason
deriving DecidableEq, Repr

/-- Modelled from the spec (§3, §4.1): the legacy claim type used by the block
crate (claim::claim::Claim), which is not among the extracted sources.  Only
what Block::valid reads is carried: the claim hash, the pointer function
`pointer(claim, seed) : Option u128` (None when the claim does not
participate), and the outcome of the claim signature/structure validation
`claim.valid(..)`. -/
structure LegacyClaim where
  hash : String
  getPointer : Nat → Option Nat
  validOk : Bool

/-- The fields of the legacy BlockHeader (header.rs of the block crate) that
Block::valid reads.  Reward comparison in the source goes through
`get_amount()`, so only the amounts are carried. -/
structure LegacyBlockHeader where
  block_height : Nat
  block_nonce : Nat
  next_block_nonce : Nat
  block_reward_amount : Nat
  next_block_reward_amount : Nat
  last_hash : String
  claim : LegacyClaim

/-- The legacy Block struct (block.rs) restricted to the fields Block::valid
reads from the candidate and the parent. -/
structure Block where
  header : LegacyBlockHeader
  hash : String

/-- The NetworkState dependency of Block::valid, carrying the claim map that
NetworkState::get_claims returns (node_state.rs). -/
structure NetworkState where
  claims : List (String × LegacyClaim)

/-- Embeds NetworkState::get_lowest_pointer (node_state.rs lines 477-500):
map every claim to `(claim.hash, claim.get_pointer(block_seed))`, drop the
None pointers, and return the first pair carrying the minimal pointer value
(`min_by_key` returns the first minimal element and the retain keeps exactly
the pairs at that value, of which the source takes index 0). -/
def NetworkState.get_lowest_pointer (ns : NetworkState) (block_seed : Nat) :
    Option (String × Nat) :=
  let pointers := ns.claims.map (fun p => (p.2.hash, p.2.getPointer block_seed))
  let retained := pointers.filter (fun p => p.2.isSome)
  let base_pointers := retained.filterMap (fun p => p.2.map (fun v => (p.1, v)))
  match (base_pointers.map (fun p => p.2)).min? with
  | some m => (base_pointers.filter (fun p => p.2 == m)).head?
  | none => none

/-- Embeds Block::valid (block.rs lines 263-332): the ordered check sequence
of the Verifiable implementation.  `self` is the candidate and `item` the
parent.  The RewardState dependency is unused by the source and omitted. -/
def Block.valid (self item : Block) (network : NetworkState) :
    Except InvalidBlockError Bool :=
  if item.header.block_height + 1 < self.header.block_height then
    .error ⟨.BlockOutOfSequence⟩
  else if self.header.block_height ≤ item.header.block_height then
    .error ⟨.NotTallestChain⟩
  else if self.header.block_nonce ≠ item.header.next_block_nonce then
    .error ⟨.InvalidBlockNonce⟩
  else if self.header.block_reward_amount ≠ item.header.next_block_reward_amount then
    .error ⟨.InvalidBlockReward⟩
  else
    let tail : Except InvalidBlockError Bool :=
      if self.header.last_hash ≠ item.hash then .error ⟨.InvalidLastHash⟩
      else if ¬ self.header.claim.validOk then .error ⟨.InvalidClaim⟩
      else .ok true
    match network.get_lowest_pointer self.header.block_nonce with
    | some (hash, pointers) =>
      if hash = self.header.claim.hash then
        match self.header.claim.getPointer self.header.block_nonce with
        | some claim_pointer =>
          if pointers ≠ claim_pointer then .error ⟨.InvalidClaimPointers⟩
          else tail
        | none => .error ⟨.InvalidClaimPointers⟩
      else .error ⟨.InvalidClaimPointers⟩
    | none => tail

/-- Node types recognized by the consensus core (§6). -/
inductive NodeType : Type
  | Bootstrap
  | Miner
  | Validator
deriving DecidableEq, Repr

/-- Opaque stand-in for hbbft sync_key_gen::Part (external crate). -/
abbrev DkgPart := Nat

/-- Opaque stand-in for hbbft sync_key_gen::Ack (external crate). -/
abbrev DkgAck := Nat

/-- The DKG message stores (dkg_engine::DkgState, modelled from the spec §3:
`part_messages : map SenderId Part`, `ack_messages : map (ReceiverId,
SenderId) Ack`, `peer_public_keys : map NodeId PK`); the dkg_engine crate is
not among the extracted sources but the consensus module manipulates these
stores directly through the accessors used in consensus_module.rs. -/
structure DkgState where
  part_message_store : List (String × DkgPart)
  ack_message_store : List ((String × String) × DkgAck)
  peer_public_keys : List (String × Nat)
deriving DecidableEq, Repr

/-- Quorum membership configuration; only the node ids of quorum_members are
read by the embedded handlers (contains_key and len). -/
structure QuorumMembershipConfig where
  quorum_members : List String
deriving DecidableEq, Repr

/-- A stored convergence-block certificate share, one element of the
`HashSet<(NodeIdx, PublicKeyShare, RawSignature)>` cache payload.  The
public key share and the raw signature are opaque. -/
structure Share where
  node_idx : Nat
  public_key_share : Nat
  signature : Nat
deriving DecidableEq, Repr

/-- The block Certificate (block crate). -/
structure Certificate where
  signature : Nat
  inauguration : Option Nat
  root_hash : String
  next_root_hash : String
  block_hash : String
deriving DecidableEq, Repr

/-- NodeError of the node crate; every path reached here uses the Other
variant. -/
inductive NodeError : Type
  | Other (msg : String)
deriving DecidableEq, Repr

/-- A convergence block as read by certify_convergence_block: only its hash is
consulted, because the body of precheck_convergence_block is entirely
commented out in the source. -/
structure ConvergenceBlock where
  hash : String
deriving DecidableEq, Repr

/-- The ConsensusModule state (consensus_module.rs) restricted to the fields
the embedded methods read: node_config.id, node_config.node_type,
the validator public key, node_config.threshold_config.threshold, the quorum
membership config of the quorum driver, the DKG state and the convergence
block certificate share cache (the Cache is modelled as its key-value
content; capacity and TTL bookkeeping do not affect the embedded paths). -/
structure ConsensusState where
  node_id : String
  node_type : NodeType
  validator_public_key : Nat
  threshold : Nat
  membership_config : Option QuorumMembershipConfig
  dkg_state : DkgState
  convergence_block_certificates : List (String × List Share)

/-- Modelled from the spec (§4.7, §8 Threshold correctness): the signer
crate SignatureProvider::generate_quorum_signature is not among the
extracted sources.  It combines the `node_idx -> signature share` map into a
full threshold signature; any t+1 valid shares combine successfully and at
most t do not.  The combined signature value is abstract and represented as
a fold of the shares. -/
def generate_quorum_signature (threshold : Nat) (sig_shares : List (Nat × Nat)) :
    Except String Nat :=
  if threshold < sig_shares.length then
    .ok (sig_shares.foldl (fun a p => a + p.2) 0)
  else
    .error "not enough signature shares"

/-- Embeds ConsensusModule::certify_convergence_block (consensus_module.rs
lines 192-245).  The initial precheck_convergence_block call is a no-op in
the source (its body is commented out), the share set for the block hash is
read from the cache, the share count is gated against the configured quorum
threshold, and the shares are collected into a BTreeMap keyed by node index
before being combined. -/
def certify_convergence_block (s : ConsensusState) (block : ConvergenceBlock)
    (_last_block_header : Nat) :
    ConsensusState × Except NodeError Certificate :=
  match alookup block.hash s.convergence_block_certificates with
  | none =>
    (s, .error (.Other "No certificate shares found for block"))
  | some certificates_share =>
    if certificates_share.length ≤ s.threshold then
      (s, .error (.Other "Not enough partial signatures to create a certificate"))
    else
      let sig_shares :=
        btreeInsertAll (fun sh => sh.node_idx) (fun sh => sh.signature)
          certificates_share []
      match generate_quorum_signature s.threshold sig_shares with
      | .error _ =>
        (s, .error (.Other "Failed to generate block certificate for block"))
      | .ok signature =>
        (s, .ok { signature := signature, inauguration := none,
                  root_hash := "", next_root_hash := "",
                  block_hash := block.hash })

/-- Modelled from the spec (§5 Shared resources: peer public keys are
write-once per peer): DkgEngine::add_peer_public_key registers the validator
public key of a node id in peer_public_keys. -/
def dkg_add_peer_public_key (node_id : String) (pk : Nat)
    (store : List (String × Nat)) : List (String × Nat) :=
  entryOrInsert node_id pk store

/-- Modelled from the spec (§4.3): DkgEngine::generate_partial_commitment
returns the `(Part, self node id)` pair; a node whose own validator public
key is not registered in peer_public_keys is an observer and the call fails.
The Part value itself is abstract. -/
def dkg_generate_part_commitment (s : ConsensusState) (threshold : Nat) :
    ConsensusState × Except NodeError (DkgPart × String) :=
  match alookup s.node_id s.dkg_state.peer_public_keys with
  | none => (s, .error (.Other "node is an observer, no part message generated"))
  | some pk => (s, .ok (pk + threshold, s.node_id))

/-- Embeds ConsensusModule::generate_partial_commitment_message
(consensus_module.rs lines 580-611): Bootstrap and Miner nodes are refused
before anything else happens, a missing membership config is refused next,
then this node registers its own validator public key and asks the engine
for a part commitment with threshold `|members| / 2`. -/
def generate_part_commitment_message (s : ConsensusState) :
    ConsensusState × Except NodeError (DkgPart × String) :=
  if s.node_type = .Bootstrap then
    (s, .error (.Other "Bootstrap nodes cannot participate in DKG"))
  else if s.node_type = .Miner then
    (s, .error (.Other "Miner nodes cannot participate in Validator DKG"))
  else
    match s.membership_config with
    | none => (s, .error (.Other "Node cannot participate in DKG"))
    | some cfg =>
      let threshold := cfg.quorum_members.length / 2
      let keys := dkg_add_peer_public_key s.node_id s.validator_public_key
        s.dkg_state.peer_public_keys
      let s1 := { s with dkg_state := { s.dkg_state with peer_public_keys := keys } }
      dkg_generate_part_commitment s1 threshold

/-- Modelled from the spec (§4.3 handle_part): DkgEngine::ack_partial_commitment
reads the stored Part of the sender, produces an Ack addressed to the sender
and stores it under `(sender, self)` if absent; without a stored Part the
call fails.  The Ack value is abstract (derived from the Part). -/
def dkg_ack_part_commitment (s : ConsensusState) (sender_id : String) :
    ConsensusState × Except NodeError (String × String × DkgAck) :=
  match alookup sender_id s.dkg_state.part_message_store with
  | none => (s, .error (.Other "part message missing for sender"))
  | some part =>
    let ack : DkgAck := part
    let acks := entryOrInsert (sender_id, s.node_id) ack s.dkg_state.ack_message_store
    ({ s with dkg_state := { s.dkg_state with ack_message_store := acks } },
     .ok (s.node_id, sender_id, ack))

/-- Embeds ConsensusModule::handle_part_commitment_created
(consensus_module.rs lines 854-878): reject a sender that is neither this
node nor a quorum member (when a membership config is installed), then store
the Part into part_message_store only if absent
(`entry(sender).or_insert_with(|| part)`), then acknowledge it. -/
def handle_part_commitment_created (s : ConsensusState) (sender_id : String)
    (part : DkgPart) : ConsensusState × Except NodeError (String × String × DkgAck) :=
  let gate_fails :=
    match s.membership_config with
    | some cfg =>
      sender_id != s.node_id && !(cfg.quorum_members.contains sender_id)
    | none => false
  if gate_fails then
    (s, .error (.Other "Node is not a quorum member"))
  else
    let parts := entryOrInsert sender_id part s.dkg_state.part_message_store
    let s1 := { s with dkg_state := { s.dkg_state with part_message_store := parts } }
    dkg_ack_part_commitment s1 sender_id

/-- Embeds ConsensusModule::handle_part_commitment_acknowledged
(consensus_module.rs lines 880-893): store the Ack into ack_message_store
under `(receiver, sender)` only if absent. -/
def handle_part_commitment_acknowledged (s : ConsensusState)
    (receiver_id sender_id : String) (ack : DkgAck) :
    ConsensusState × Except NodeError Unit :=
  let acks := entryOrInsert (receiver_id, sender_id) ack s.dkg_state.ack_message_store
  ({ s with dkg_state := { s.dkg_state with ack_message_store := acks } }, .ok ())

/-- Error type of the validator crate (txn_validator.rs). -/
inductive TxnValidatorError : Type
  | InvalidSender
  | SenderAddressMissing
  | SenderAddressIncorrect
  | SenderPublicKeyIncorrect
  | ReceiverAddressMissing
  | ReceiverAddressIncorrect
  | OutOfBoundsTimestamp (t now : Int)
  | OutOfBounds (v lo hi : String)
  | TxnAmountIncorrect
  | TxnSignatureIncorrect
  | TxnSignatureTresholdIncorrect
  | NotFound
  | AccountNotFound (addr : String)
deriving DecidableEq, Repr

/-- The transaction fields the validator reads (vrrb_core TransactionKind
surface: sender_address, receiver_address, sender_public_key, signature,
amount, timestamp). -/
structure TransactionKind where
  sender_address : String
  receiver_address : String
  sender_public_key : String
  signature : String
  amount : Nat
  timestamp : Int
deriving DecidableEq, Repr

/-- An account as the validator reads it (credits and debits). -/
structure Account where
  credits : Nat
  debits : Nat
deriving DecidableEq, Repr

/-- External dependencies of the transaction validator, modelled as
functions: parse_sender_address models secp256k1::PublicKey::from_str
composed with Address::new (the account-map key derived from the parsed
key, some exactly when the address string parses as a valid public key),
verify_ecdsa models KeyPair::verify_ecdsa_sign, and now models
chrono Utc::now().timestamp(). -/
structure TxnValidatorEnv where
  parse_sender_address : String → Option Nat
  verify_ecdsa : TransactionKind → Bool
  now : Int

/-- Embeds TxnValidator::validate_amount (txn_validator.rs lines 158-177).
`none` models a panic: the source calls `.unwrap()` on the result of the
account-map lookup, and computes `credits - debits` with bare u128
subtraction, both of which panic rather than return an error. -/
def validate_amount (env : TxnValidatorEnv) (account_state : List (Nat × Account))
    (txn : TransactionKind) : Option (Except TxnValidatorError Unit) :=
  match env.parse_sender_address txn.sender_address with
  | some address =>
    match alookup address account_state with
    | none => none
    | some account =>
      if account.credits < account.debits then none
      else if account.credits - account.debits < txn.amount then
        some (.error .TxnAmountIncorrect)
      else some (.ok ())
  | none => some (.error .SenderAddressIncorrect)

/-- Embeds TxnValidator::validate_public_key. -/
def validate_public_key (txn : TransactionKind) : Except TxnValidatorError Unit :=
  if ¬ txn.sender_public_key.isEmpty then .ok ()
  else .error .SenderPublicKeyIncorrect

/-- Embeds TxnValidator::validate_sender_address; the constant "0x192" is
ADDRESS_PREFIX from the source. -/
def validate_sender_address (txn : TransactionKind) : Except TxnValidatorError Unit :=
  if ¬ txn.sender_address.isEmpty
      && txn.sender_address.startsWith "0x192"
      && txn.sender_address.length > 10 then
    .ok ()
  else .error .SenderAddressMissing

/-- Embeds TxnValidator::validate_receiver_address. -/
def validate_receiver_address (txn : TransactionKind) :
    Except TxnValidatorError Unit :=
  if ¬ txn.receiver_address.isEmpty
      && txn.receiver_address.startsWith "0x192"
      && txn.receiver_address.length > 10 then
    .ok ()
  else .error .ReceiverAddressMissing

/-- Embeds TxnValidator::validate_signature. -/
def validate_txn_signature (env : TxnValidatorEnv) (txn : TransactionKind) :
    Except TxnValidatorError Unit :=
  if ¬ txn.signature.isEmpty then
    if env.verify_ecdsa txn then .ok () else .error .TxnSignatureIncorrect
  else .error .TxnSignatureIncorrect

/-- Embeds TxnValidator::validate_timestamp. -/
def validate_timestamp (env : TxnValidatorEnv) (txn : TransactionKind) :
    Except TxnValidatorError Unit :=
  if 0 < txn.timestamp ∧ txn.timestamp < env.now then .ok ()
  else .error (.OutOfBoundsTimestamp txn.timestamp env.now)

/-- Embeds TxnValidator::validate_structure (the and_then chain), with the
panic of validate_amount propagated as `none`. -/
def validate_structure (env : TxnValidatorEnv) (account_state : List (Nat × Account))
    (txn : TransactionKind) : Option (Except TxnValidatorError Unit) :=
  match validate_amount env account_state txn with
  | none => none
  | some (.error e) => some (.error e)
  | some (.ok _) =>
    some ((validate_public_key txn).bind (fun _ =>
      (validate_sender_address txn).bind (fun _ =>
        (validate_receiver_address txn).bind (fun _ =>
          (validate_txn_signature env txn).bind (fun _ =>
            validate_timestamp env txn)))))

/-- Embeds TxnValidator::validate, which delegates to validate_structure. -/
def txn_validate (env : TxnValidatorEnv) (account_state : List (Nat × Account))
    (txn : TransactionKind) : Option (Except TxnValidatorError Unit) :=
  validate_structure env account_state txn


/-- Fixture: a Harvester claim used by concrete witnesses. -/
def exClaimA : Claim :=
  { publicKey := "pka", address := "a1", hash := 3,
    eligibility := .Harvester, nonce := 0, stake := 0 }

/-- Fixture: a Farmer claim used by concrete witnesses. -/
def exClaimB : Claim :=
  { publicKey := "pkb", address := "a2", hash := 1,
    eligibility := .Farmer, nonce := 0, stake := 0 }

/-- Fixture: another Harvester claim used by concrete witnesses. -/
def exClaimC : Claim :=
  { publicKey := "pkc", address := "a3", hash := 2,
    eligibility := .Harvester, nonce := 0, stake := 0 }

/-- Fixture: a concrete election-result hash for witnesses (the claim hash,
ignoring the seed). -/
def exEr : Claim → Nat → Nat := fun c _ => c.hash

/-- Fixture: a quorum with a nonzero seed. -/
def exQuorum : Quorum :=
  { quorum_seed := 1, master_pubkeys := [], quorum_pk := "",
    election_block_height := 5 }

/-- Fixture: a legacy claim whose pointer is undefined for every nonce. -/
def exLegacyClaim : LegacyClaim :=
  { hash := "ch", getPointer := fun _ => none, validOk := true }

/-- Fixture: a parent block at height 10. -/
def exParent : Block :=
  { header := { block_height := 10, block_nonce := 7, next_block_nonce := 8,
                block_reward_amount := 50, next_block_reward_amount := 40,
                last_hash := "pp", claim := exLegacyClaim },
    hash := "ph" }

/-- Fixture: a candidate block also at height 10 (same height as exParent). -/
def exCandidateSame : Block :=
  { header := { block_height := 10, block_nonce := 8, next_block_nonce := 9,
                block_reward_amount := 40, next_block_reward_amount := 30,
                last_hash := "ph", claim := exLegacyClaim },
    hash := "bh" }

/-- Fixture: a candidate block at height 11 that satisfies every non-pointer
check against exParent. -/
def exCandidateOk : Block :=
  { header := { block_height := 11, block_nonce := 8, next_block_nonce := 9,
                block_reward_amount := 40, next_block_reward_amount := 30,
                last_hash := "ph", claim := exLegacyClaim },
    hash := "bh" }

/-- Fixture: a network state holding one claim with no defined pointer. -/
def exNetwork : NetworkState := { claims := [("n1", exLegacyClaim)] }

/-- Fixture: a certificate share from node index 1. -/
def exShare : Share := { node_idx := 1, public_key_share := 2, signature := 3 }

/-- Fixture: a consensus state with threshold 0, one cached share for block
hash "h", one stored Part from "peer" and one stored Ack for
("peer", "self"). -/
def exConsensus : ConsensusState :=
  { node_id := "self", node_type := .Validator, validator_public_key := 9,
    threshold := 0, membership_config := none,
    dkg_state := { part_message_store := [("peer", 5)],
                   ack_message_store := [(("peer", "self"), 6)],
                   peer_public_keys := [("self", 9)] },
    convergence_block_certificates := [("h", [exShare])] }

/-- Fixture: the same consensus state with node type Bootstrap. -/
def exBootstrap : ConsensusState := { exConsensus with node_type := .Bootstrap }

/-- Fixture: the convergence block with hash "h". -/
def exBlockC : ConvergenceBlock := { hash := "h" }

/-- Fixture: validator environment whose sender addresses all parse to the
account key 7. -/
def exEnv : TxnValidatorEnv :=
  { parse_sender_address := fun _ => some 7,
    verify_ecdsa := fun _ => true, now := 100 }

/-- Fixture: a well-formed transaction whose sender account is absent from
the empty account state. -/
def exTxn : TransactionKind :=
  { sender_address := "0x192abcdefgh", receiver_address := "0x192abcdefgh",
    sender_public_key := "pk", signature := "sig", amount := 0, timestamp := 1 }

/-- Replaying an insert-if-absent write for a key that is already stored
leaves the map unchanged. -/
theorem entryOrInsert_of_mem {α β : Type} [DecidableEq α] {k : α} {v : β}
    (v2 : β) {m : List (α × β)} (h : alookup k m = some v) :
    entryOrInsert k v2 m = m := by
  simp [entryOrInsert, h]

/-- Appending a binding for `k` makes `k` present. -/
theorem alookup_append_singleton {α β : Type} [DecidableEq α] (k : α) (v : β)
    (m : List (α × β)) : (alookup k (m ++ [(k, v)])).isSome := by
  induction m with
  | nil => simp [alookup]
  | cons p rest ih =>
    obtain ⟨k2, w⟩ := p
    by_cases hk : k = k2 <;> simp [alookup, hk, ih]

/-- After an insert-if-absent write the key is present. -/
theorem alookup_entryOrInsert_self {α β : Type} [DecidableEq α] (k : α) (v : β)
    (m : List (α × β)) : (alookup k (entryOrInsert k v m)).isSome := by
  by_cases h : (alookup k m).isSome
  · rw [entryOrInsert, if_pos h]; exact h
  · rw [entryOrInsert, if_neg h]; exact alookup_append_singleton k v m

/-- Claim C1: the spec describes get_eligible_claims as keeping the
Harvester-or-Farmer claims and erroring exactly below 20 of them; the source
instead conjoins the two equalities, an unsatisfiable filter, so the call
returns InsufficientNodesError on every ballot whatsoever — including a
ballot of 20 Harvester claims, which the claim says must be returned. -/
theorem get_eligible_claims_always_insufficient (ballot : List Claim) :
    Quorum.get_eligible_claims ballot = .error .InsufficientNodesError := by
  have h : ballot.filter (fun claim =>
      claim.eligibility == Eligibility.Harvester
        && claim.eligibility == Eligibility.Farmer) = [] := by
    induction ballot with
    | nil => rfl
    | cons c rest ih =>
      have hc : (c.eligibility == Eligibility.Harvester
          && c.eligibility == Eligibility.Farmer) = false := by
        cases h2 : c.eligibility <;> rfl
      simp [List.filter_cons, hc, ih]
  simp [Quorum.get_eligible_claims, h]

/-- Claim C2: Block::valid runs the sequence check first: a candidate more
than one above the parent height fails with BlockOutOfSequence and a
candidate at or below the parent height fails with NotTallestChain,
whatever every other field holds. -/
theorem block_valid_sequence_first (self item : Block) (ns : NetworkState) :
    (item.header.block_height + 1 < self.header.block_height →
      Block.valid self item ns = .error ⟨.BlockOutOfSequence⟩) ∧
    (self.header.block_height ≤ item.header.block_height →
      Block.valid self item ns = .error ⟨.NotTallestChain⟩) := by
  constructor
  · intro h
    simp [Block.valid, h]
  · intro h
    have h1 : ¬ item.header.block_height + 1 < self.header.block_height := by
      omega
    simp [Block.valid, h1, h]

/-- Witness for C2: a parent at height 10 and a candidate at height 10 give
NotTallestChain, the spec scenario "Shorter chain rejected". -/
theorem block_valid_sequence_first_witness :
    Block.valid exCandidateSame exParent exNetwork = .error ⟨.NotTallestChain⟩ :=
  (block_valid_sequence_first exCandidateSame exParent exNetwork).2 (by decide)

/-- Claim C5 (amended): every seed the re-roll loop of Quorum::generate_seed
returns is at least u32::MAX; draws strictly below u32::MAX are re-rolled.
The loop guard is `random_number < u32::MAX as u64`, so u32::MAX itself is
accepted, not only values strictly above it. -/
theorem generate_seed_ge_u32max (height : Nat) (vrfOk : Bool)
    (draws : List Nat) (r : Nat)
    (h : Quorum.generate_seed height vrfOk draws = some (.ok r)) :
    u32MAX ≤ r := by
  unfold Quorum.generate_seed at h
  split at h
  · simp at h
  · split at h
    · simp at h
    · cases hf : draws.find? (fun x => decide (u32MAX ≤ x)) with
      | none => rw [hf] at h; simp at h
      | some x =>
        rw [hf] at h
        simp at h
        have hx := List.find?_some hf
        rw [h] at hx
        exact of_decide_eq_true hx

/-- Witness for C5: with draws [5, u32MAX] the first draw is re-rolled and
the seed u32MAX is returned, which satisfies the amended bound. -/
theorem generate_seed_ge_u32max_witness :
    Quorum.generate_seed 1 true [5, u32MAX] = some (.ok u32MAX) ∧
      u32MAX ≤ u32MAX :=
  ⟨rfl, generate_seed_ge_u32max 1 true [5, u32MAX] u32MAX rfl⟩

/-- Counterexample for C5 as stated: a draw equal to u32::MAX is accepted by
the loop (the guard is strict), so the successful seed u32MAX is not
strictly greater than u32::MAX. -/
theorem generate_seed_eq_u32max_counterexample :
    Quorum.generate_seed 1 true [u32MAX] = some (.ok u32MAX) ∧
      ¬ u32MAX < u32MAX := ⟨rfl, by omega⟩

/-- The DKG part-acknowledgement step never touches the Part store. -/
theorem dkg_ack_part_commitment_parts (s : ConsensusState) (sender : String) :
    ((dkg_ack_part_commitment s sender).1).dkg_state.part_message_store
      = s.dkg_state.part_message_store := by
  unfold dkg_ack_part_commitment
  cases alookup sender s.dkg_state.part_message_store <;> rfl

/-- Claim C6: the DKG message stores are first-writer-wins: a replayed Part
for an already-stored sender id leaves the Part store unchanged, and a
replayed Ack for an already-stored (receiver, sender) pair leaves the Ack
store unchanged. -/
theorem dkg_stores_first_writer_wins :
    (∀ (s : ConsensusState) (sender : String) (p p2 : DkgPart),
      alookup sender s.dkg_state.part_message_store = some p →
      ((handle_part_commitment_created s sender p2).1).dkg_state.part_message_store
        = s.dkg_state.part_message_store) ∧
    (∀ (s : ConsensusState) (r sd : String) (a a2 : DkgAck),
      alookup (r, sd) s.dkg_state.ack_message_store = some a →
      ((handle_part_commitment_acknowledged s r sd a2).1).dkg_state.ack_message_store
        = s.dkg_state.ack_message_store) := by
  constructor
  · intro s sender p p2 hp
    have hstore := entryOrInsert_of_mem p2 hp
    have htail : ∀ (s2 : ConsensusState),
        s2.dkg_state.part_message_store = s.dkg_state.part_message_store →
        ((dkg_ack_part_commitment s2 sender).1).dkg_state.part_message_store
          = s.dkg_state.part_message_store := by
      intro s2 h2
      rw [dkg_ack_part_commitment_parts]
      exact h2
    unfold handle_part_commitment_created
    cases hm : s.membership_config with
    | none =>
      simp only [hm]
      exact htail _ (by simp [hstore])
    | some cfg =>
      simp only [hm]
      by_cases hg : (sender != s.node_id
          && !(cfg.quorum_members.contains sender)) = true
      · rw [if_pos hg]
      · rw [if_neg hg]
        exact htail _ (by simp [hstore])
  · intro s r sd a a2 ha
    unfold handle_part_commitment_acknowledged
    simp [entryOrInsert_of_mem a2 ha]

/-- Witness for C6: in exConsensus a Part for "peer" and an Ack for
("peer", "self") are already stored; replaying either leaves the
corresponding store unchanged. -/
theorem dkg_stores_first_writer_wins_witness :
    ((handle_part_commitment_created exConsensus "peer" 42).1).dkg_state.part_message_store
      = exConsensus.dkg_state.part_message_store ∧
    ((handle_part_commitment_acknowledged exConsensus "peer" "self" 43).1).dkg_state.ack_message_store
      = exConsensus.dkg_state.ack_message_store :=
  ⟨dkg_stores_first_writer_wins.1 exConsensus "peer" 5 42 rfl,
   dkg_stores_first_writer_wins.2 exConsensus "peer" "self" 6 43 rfl⟩

/-- The modelled engine call returns its input state unchanged. -/
theorem dkg_generate_part_commitment_fst (s : ConsensusState) (t : Nat) :
    (dkg_generate_part_commitment s t).1 = s := by
  unfold dkg_generate_part_commitment
  cases alookup s.node_id s.dkg_state.peer_public_keys <;> rfl

/-- Claim C8: generate_partial_commitment_message refuses Bootstrap and
Miner nodes with an error before any state mutation (the returned state is
the input state), and for exactly the other node types with a membership
config it proceeds to register this node's validator public key. -/
theorem generate_part_commitment_refusal (s : ConsensusState) :
    (s.node_type = .Bootstrap ∨ s.node_type = .Miner →
      ((generate_part_commitment_message s).2 =
          .error (.Other "Bootstrap nodes cannot participate in DKG") ∨
        (generate_part_commitment_message s).2 =
          .error (.Other "Miner nodes cannot participate in Validator DKG")) ∧
      (generate_part_commitment_message s).1 = s) ∧
    (∀ cfg, s.node_type ≠ .Bootstrap → s.node_type ≠ .Miner →
      s.membership_config = some cfg →
      (alookup s.node_id
        ((generate_part_commitment_message s).1).dkg_state.peer_public_keys).isSome) := by
  constructor
  · rintro (h | h) <;> simp [generate_part_commitment_message, h]
  · intro cfg h1 h2 hc
    have hv : s.node_type = .Validator := by
      cases h : s.node_type
      · exact absurd h h1
      · exact absurd h h2
      · rfl
    rw [generate_part_commitment_message]
    rw [if_neg (by simp [hv]), if_neg (by simp [hv]), hc]
    rw [dkg_generate_part_commitment_fst]
    exact alookup_entryOrInsert_self s.node_id s.validator_public_key
      s.dkg_state.peer_public_keys

/-- Witness for C8: the Bootstrap fixture is refused and its state is
unchanged. -/
theorem generate_part_commitment_refusal_witness :
    ((generate_part_commitment_message exBootstrap).2 =
        .error (.Other "Bootstrap nodes cannot participate in DKG") ∨
      (generate_part_commitment_message exBootstrap).2 =
        .error (.Other "Miner nodes cannot participate in Validator DKG")) ∧
    (generate_part_commitment_message exBootstrap).1 = exBootstrap :=
  (generate_part_commitment_refusal exBootstrap).1 (Or.inl rfl)

/-- Claim C9: the spec says validation never panics and surfaces a missing
sender account as AccountNotFound; the source instead calls `.unwrap()` on
the account lookup, so a transaction whose sender address parses as a valid
public key but has no account in the state map makes TxnValidator::validate
panic (modelled as `none`); no AccountNotFound error is ever constructed. -/
theorem txn_validate_missing_account_hits_unwrap :
    txn_validate exEnv [] exTxn = none := rfl

/-- Key membership after a BTreeMap insert. -/
theorem btreeInsert_mem_keys {α : Type} (k : Nat) (v : α) (m : List (Nat × α))
    (a : Nat) :
    a ∈ (btreeInsert k v m).map Prod.fst ↔ a = k ∨ a ∈ m.map Prod.fst := by
  induction m with
  | nil => simp [btreeInsert]
  | cons p rest ih =>
    obtain ⟨k2, v2⟩ := p
    by_cases h1 : k < k2
    · simp [btreeInsert, h1]
    · by_cases h2 : k = k2
      · subst h2
        have hred : btreeInsert k v ((k, v2) :: rest) = (k, v) :: rest := by
          simp [btreeInsert, h1]
        rw [hred]
        simp
      · simp [btreeInsert, h1, h2, ih]
        tauto

/-- A BTreeMap insert keeps the key list strictly sorted. -/
theorem btreeInsert_keys_sorted {α : Type} (k : Nat) (v : α) (m : List (Nat × α))
    (h : (m.map Prod.fst).Pairwise (· < ·)) :
    ((btreeInsert k v m).map Prod.fst).Pairwise (· < ·) := by
  induction m with
  | nil => simp [btreeInsert]
  | cons p rest ih =>
    obtain ⟨k2, v2⟩ := p
    simp only [List.map_cons, List.pairwise_cons] at h
    obtain ⟨hall, hrest⟩ := h
    by_cases h1 : k < k2
    · simp only [btreeInsert, if_pos h1, List.map_cons, List.pairwise_cons]
      refine ⟨?_, hall, hrest⟩
      intro b hb
      rcases List.mem_cons.mp hb with rfl | hb2
      · exact h1
      · exact Nat.lt_trans h1 (hall b hb2)
    · by_cases h2 : k = k2
      · subst h2
        have hred : btreeInsert k v ((k, v2) :: rest) = (k, v) :: rest := by
          simp [btreeInsert, h1]
        rw [hred, List.map_cons, List.pairwise_cons]
        exact ⟨hall, hrest⟩
      · have h3 : k2 < k := by omega
        simp only [btreeInsert, if_neg h1, if_neg h2, List.map_cons,
          List.pairwise_cons]
        refine ⟨?_, ih hrest⟩
        intro b hb
        rcases (btreeInsert_mem_keys k v rest b).mp hb with rfl | hb2
        · exact h3
        · exact hall b hb2

/-- Collecting into a BTreeMap keeps the key list strictly sorted. -/
theorem btreeInsertAll_keys_sorted {α β : Type} (key : α → Nat) (val : α → β)
    (l : List α) :
    ∀ m : List (Nat × β), (m.map Prod.fst).Pairwise (· < ·) →
      ((btreeInsertAll key val l m).map Prod.fst).Pairwise (· < ·) := by
  induction l with
  | nil => intro m hm; exact hm
  | cons a l ih =>
    intro m hm
    exact ih (btreeInsert (key a) (val a) m) (btreeInsert_keys_sorted _ _ _ hm)

/-- Key membership after collecting into a BTreeMap. -/
theorem btreeInsertAll_mem_keys {α β : Type} (key : α → Nat) (val : α → β)
    (l : List α) :
    ∀ (m : List (Nat × β)) (a : Nat),
      a ∈ (btreeInsertAll key val l m).map Prod.fst ↔
        a ∈ m.map Prod.fst ∨ a ∈ l.map key := by
  induction l with
  | nil => intro m a; simp [btreeInsertAll]
  | cons x l ih =>
    intro m a
    have hstep : btreeInsertAll key val (x :: l) m
        = btreeInsertAll key val l (btreeInsert (key x) (val x) m) := rfl
    rw [hstep, ih, btreeInsert_mem_keys]
    simp only [List.map_cons, List.mem_cons]
    tauto

/-- Every pair of a BTreeMap insert is the inserted pair or an old pair. -/
theorem btreeInsert_values_subset {α : Type} (k : Nat) (v : α)
    (m : List (Nat × α)) :
    ∀ p ∈ btreeInsert k v m, p = (k, v) ∨ p ∈ m := by
  induction m with
  | nil => simp [btreeInsert]
  | cons q rest ih =>
    obtain ⟨k2, v2⟩ := q
    intro p hp
    by_cases h1 : k < k2
    · simp only [btreeInsert, if_pos h1, List.mem_cons] at hp
      simp only [List.mem_cons]
      tauto
    · by_cases h2 : k = k2
      · subst h2
        have hred : btreeInsert k v ((k, v2) :: rest) = (k, v) :: rest := by
          simp [btreeInsert, h1]
        rw [hred] at hp
        simp only [List.mem_cons] at hp
        simp only [List.mem_cons]
        tauto
      · simp only [btreeInsert, if_neg h1, if_neg h2, List.mem_cons] at hp
        rcases hp with rfl | hp2
        · right; simp
        · rcases ih p hp2 with h | h
          · left; exact h
          · right; simp [h]

/-- Every pair in a collected BTreeMap is an old pair or comes from an input
element as `(key a, val a)`. -/
theorem btreeInsertAll_values {α β : Type} (key : α → Nat) (val : α → β)
    (l : List α) :
    ∀ (m : List (Nat × β)) (p : Nat × β), p ∈ btreeInsertAll key val l m →
      p ∈ m ∨ ∃ a ∈ l, p = (key a, val a) := by
  induction l with
  | nil => intro m p hp; left; exact hp
  | cons x l ih =>
    intro m p hp
    have hstep : btreeInsertAll key val (x :: l) m
        = btreeInsertAll key val l (btreeInsert (key x) (val x) m) := rfl
    rw [hstep] at hp
    rcases ih _ p hp with h | h
    · rcases btreeInsert_values_subset (key x) (val x) m p h with h2 | h2
      · right; exact ⟨x, by simp, h2⟩
      · left; exact h2
    · rcases h with ⟨a, ha, rfl⟩
      right; exact ⟨a, by simp [ha], rfl⟩

/-- Size of a collected BTreeMap: the number of distinct keys. -/
theorem btreeInsertAll_card {α β : Type} (key : α → Nat) (val : α → β)
    (l : List α) :
    ∀ m : List (Nat × β), (m.map Prod.fst).Pairwise (· < ·) →
      (btreeInsertAll key val l m).length =
        ((m.map Prod.fst).toFinset ∪ (l.map key).toFinset).card := by
  induction l with
  | nil =>
    intro m hm
    have hnd : (m.map Prod.fst).Nodup := hm.imp (fun h => Nat.ne_of_lt h)
    have : (btreeInsertAll key val [] m) = m := rfl
    rw [this]
    simp only [List.map_nil, List.toFinset_nil, Finset.union_empty]
    rw [List.toFinset_card_of_nodup hnd, List.length_map]
  | cons x l ih =>
    intro m hm
    have hstep : btreeInsertAll key val (x :: l) m
        = btreeInsertAll key val l (btreeInsert (key x) (val x) m) := rfl
    rw [hstep, ih _ (btreeInsert_keys_sorted _ _ _ hm)]
    congr 1
    ext a
    simp only [Finset.mem_union, List.mem_toFinset, btreeInsert_mem_keys,
      List.map_cons, List.mem_cons]
    tauto

/-- Size of a BTreeMap collected from scratch: the deduplicated key count. -/
theorem btreeInsertAll_length_dedup {α β : Type} (key : α → Nat) (val : α → β)
    (l : List α) :
    (btreeInsertAll key val l []).length = (l.map key).dedup.length := by
  rw [btreeInsertAll_card key val l [] (by simp)]
  simp [List.card_toFinset]

/-- Claim C3: certify_convergence_block errors when the cache has no entry
for the block hash, errors when the stored share count does not exceed the
configured threshold, and with strictly more shares than the threshold
(from distinct node indices, the idempotence key of the share set) it
produces a certificate whose block_hash is the hash of the block. -/
theorem certify_convergence_block_spec (s : ConsensusState)
    (b : ConvergenceBlock) (hdr : Nat) :
    (alookup b.hash s.convergence_block_certificates = none →
      (certify_convergence_block s b hdr).2 =
        .error (.Other "No certificate shares found for block")) ∧
    (∀ shares, alookup b.hash s.convergence_block_certificates = some shares →
      shares.length ≤ s.threshold →
      (certify_convergence_block s b hdr).2 =
        .error (.Other "Not enough partial signatures to create a certificate")) ∧
    (∀ shares, alookup b.hash s.convergence_block_certificates = some shares →
      s.threshold < shares.length →
      (shares.map Share.node_idx).Nodup →
      ∃ cert, (certify_convergence_block s b hdr).2 = .ok cert ∧
        cert.block_hash = b.hash) := by
  refine ⟨?_, ?_, ?_⟩
  · intro h
    simp [certify_convergence_block, h]
  · intro shares h hle
    simp [certify_convergence_block, h, hle]
  · intro shares h hlt hnd
    have hlen : (btreeInsertAll (fun sh => sh.node_idx)
        (fun sh => sh.signature) shares []).length = shares.length := by
      rw [btreeInsertAll_length_dedup, List.dedup_eq_self.mpr hnd,
        List.length_map]
    simp only [certify_convergence_block, h]
    rw [if_neg (by omega)]
    unfold generate_quorum_signature
    rw [if_pos (by rw [hlen]; exact hlt)]
    exact ⟨_, rfl, rfl⟩

/-- Witness for C3: the fixture state has threshold 0 and one cached share
for block hash "h", so certification succeeds and the certificate carries
that hash. -/
theorem certify_convergence_block_spec_witness :
    ∃ cert, (certify_convergence_block exConsensus exBlockC 0).2 = .ok cert ∧
      cert.block_hash = exBlockC.hash :=
  (certify_convergence_block_spec exConsensus exBlockC 0).2.2 [exShare] rfl
    (by decide) (by decide)

/-- Claim C4 (amended): certify_convergence_block never marks anything
sealed — it leaves the consensus state unchanged, so a repeated
certification call for the same block hash returns the same certificate
again instead of refusing a second one. -/
theorem certify_convergence_block_no_seal (s : ConsensusState)
    (b : ConvergenceBlock) (hdr : Nat) :
    (certify_convergence_block s b hdr).1 = s ∧
    (∀ c, (certify_convergence_block s b hdr).2 = .ok c →
      (certify_convergence_block (certify_convergence_block s b hdr).1 b hdr).2
        = .ok c) := by
  have h1 : (certify_convergence_block s b hdr).1 = s := by
    unfold certify_convergence_block
    cases alookup b.hash s.convergence_block_certificates with
    | none => rfl
    | some shares =>
      by_cases hle : shares.length ≤ s.threshold
      · simp [hle]
      · simp only [if_neg hle]
        cases generate_quorum_signature s.threshold
          (btreeInsertAll (fun sh => sh.node_idx) (fun sh => sh.signature)
            shares []) <;> rfl
  refine ⟨h1, fun c hc => ?_⟩
  rw [h1]
  exact hc

/-- Witness for C4 (amended): on the fixture the state is unchanged and the
repeated call returns the same certificate. -/
theorem certify_convergence_block_no_seal_witness :
    (certify_convergence_block exConsensus exBlockC 0).1 = exConsensus ∧
    (certify_convergence_block
        (certify_convergence_block exConsensus exBlockC 0).1 exBlockC 0).2 =
      .ok { signature := 3, inauguration := none, root_hash := "",
            next_root_hash := "", block_hash := "h" } :=
  ⟨(certify_convergence_block_no_seal exConsensus exBlockC 0).1,
   (certify_convergence_block_no_seal exConsensus exBlockC 0).2 _ rfl⟩

/-- Counterexample for C4 as stated: after a certificate has been produced
for hash "h" (first call), a further certification call for the same hash
still yields a certificate — the entry is not sealed. -/
theorem certify_second_certificate_counterexample :
    ((certify_convergence_block exConsensus exBlockC 0).2).isOk = true ∧
    ((certify_convergence_block
        (certify_convergence_block exConsensus exBlockC 0).1 exBlockC 0).2).isOk
      = true := ⟨rfl, rfl⟩

/-- Claim C10: when no claim in the claim map has a defined pointer for the
candidate block nonce, get_lowest_pointer returns None, the pointer check in
Block::valid is skipped entirely (InvalidClaimPointers is never returned),
and validation succeeds whenever every other check passes, without ever
consulting the miner claim pointer. -/
theorem block_valid_pointer_check_skipped (self item : Block)
    (ns : NetworkState)
    (h : ∀ p ∈ ns.claims, (p.2).getPointer self.header.block_nonce = none) :
    ns.get_lowest_pointer self.header.block_nonce = none ∧
    Block.valid self item ns ≠ .error ⟨.InvalidClaimPointers⟩ ∧
    (item.header.block_height < self.header.block_height →
     self.header.block_height ≤ item.header.block_height + 1 →
     self.header.block_nonce = item.header.next_block_nonce →
     self.header.block_reward_amount = item.header.next_block_reward_amount →
     self.header.last_hash = item.hash →
     self.header.claim.validOk = true →
     Block.valid self item ns = .ok true) := by
  have hlow : ns.get_lowest_pointer self.header.block_nonce = none := by
    have hfil : (ns.claims.map
        (fun p => (p.2.hash, p.2.getPointer self.header.block_nonce))).filter
          (fun p => p.2.isSome) = [] := by
      rw [List.filter_eq_nil_iff]
      intro q hq
      rcases List.mem_map.mp hq with ⟨p, hp, rfl⟩
      simp [h p hp]
    simp only [NetworkState.get_lowest_pointer, hfil]
    simp
  refine ⟨hlow, ?_, ?_⟩
  · intro heq
    simp only [Block.valid, hlow] at heq
    repeat' split at heq
    all_goals simp at heq
  · intro hseq1 hseq2 hn hr hl hcv
    have h1 : ¬ item.header.block_height + 1 < self.header.block_height := by
      omega
    have h2 : ¬ self.header.block_height ≤ item.header.block_height := by
      omega
    have hlow2 : ns.get_lowest_pointer item.header.next_block_nonce = none := by
      rw [← hn]
      exact hlow
    simp [Block.valid, hlow, hlow2, h1, h2, hn, hr, hl, hcv]

/-- Witness for C10: the fixture network has one claim whose pointer is
undefined for every nonce; the fixture candidate passes every other check
against the fixture parent and validation succeeds. -/
theorem block_valid_pointer_check_skipped_witness :
    exNetwork.get_lowest_pointer exCandidateOk.header.block_nonce = none ∧
    Block.valid exCandidateOk exParent exNetwork = .ok true := by
  have h : ∀ p ∈ exNetwork.claims,
      (p.2).getPointer exCandidateOk.header.block_nonce = none := by
    intro p hp
    have hp2 : p = ("n1", exLegacyClaim) := by
      simpa [exNetwork] using hp
    subst hp2
    rfl
  have hmain := block_valid_pointer_check_skipped exCandidateOk exParent
    exNetwork h
  exact ⟨hmain.1, hmain.2.2 (by decide) (by decide) rfl rfl rfl rfl⟩

/-- Every pair of the election-result BTreeMap carries its own election
result as key. -/
theorem btreeInsertAll_fst_eq (er : Claim → Nat → Nat) (seed : Nat)
    (claims : List Claim) :
    ∀ p ∈ btreeInsertAll (fun c => er c seed) id claims [], p.1 = er p.2 seed := by
  intro p hp
  rcases btreeInsertAll_values (fun c => er c seed) id claims [] p hp with
    h | ⟨a, _, rfl⟩
  · cases h
  · rfl

/-- Mapping the election result over the first entries of the
election-result BTreeMap gives the first keys. -/
theorem btreeInsertAll_take_map_er (er : Claim → Nat → Nat) (seed : Nat)
    (claims : List Claim) (n : Nat) :
    (((btreeInsertAll (fun c => er c seed) id claims []).take n).map
        Prod.snd).map (fun c => er c seed)
      = ((btreeInsertAll (fun c => er c seed) id claims []).map Prod.fst).take n := by
  rw [List.map_map, ← List.map_take]
  have h : ∀ p ∈ (btreeInsertAll (fun c => er c seed) id claims []).take n,
      ((fun c => er c seed) ∘ Prod.snd) p = p.1 := by
    intro p hp
    exact (btreeInsertAll_fst_eq er seed claims p
      (List.take_subset n _ hp)).symm
  rw [List.map_congr_left h, List.map_take]

/-- Claim C7: get_final_quorum returns NoSeed on a zero quorum seed; with a
nonzero seed it returns InvalidPointerSum with the claims when the number of
distinct election results is below ⌈0.65·N⌉, and otherwise succeeds, setting
master_pubkeys to the public keys of the first ⌈0.51·N⌉ claims in strictly
increasing election-result order: ⌈0.51·N⌉ of them, all from the ballot,
their election results strictly increasing, and no ballot claim has an
election result below a selected one unless that result is itself
selected. -/
theorem get_final_quorum_spec (er : Claim → Nat → Nat) (q : Quorum)
    (claims : List Claim) :
    (q.quorum_seed = 0 →
      Quorum.get_final_quorum er q claims = .error .NoSeedError) ∧
    (q.quorum_seed ≠ 0 →
      ((claims.map (fun c => er c q.quorum_seed)).dedup.length <
          ceilPct 65 claims.length →
        Quorum.get_final_quorum er q claims =
          .error (.InvalidPointerSumError claims)) ∧
      (ceilPct 65 claims.length ≤
          (claims.map (fun c => er c q.quorum_seed)).dedup.length →
        ∃ sel : List Claim,
          Quorum.get_final_quorum er q claims =
            .ok { q with master_pubkeys := sel.map Claim.publicKey } ∧
          sel.length = ceilPct 51 claims.length ∧
          (∀ c ∈ sel, c ∈ claims) ∧
          (sel.map (fun c => er c q.quorum_seed)).Pairwise (· < ·) ∧
          (∀ c ∈ claims,
            er c q.quorum_seed ∈ sel.map (fun c => er c q.quorum_seed) ∨
            ∀ d ∈ sel, er d q.quorum_seed < er c q.quorum_seed))) := by
  have hlen : (btreeInsertAll (fun c => er c q.quorum_seed) id claims []).length
      = (claims.map (fun c => er c q.quorum_seed)).dedup.length :=
    btreeInsertAll_length_dedup (fun c => er c q.quorum_seed) id claims
  have hsort : ((btreeInsertAll (fun c => er c q.quorum_seed) id claims
      []).map Prod.fst).Pairwise (· < ·) :=
    btreeInsertAll_keys_sorted (fun c => er c q.quorum_seed) id claims []
      (by simp)
  refine ⟨fun h0 => by simp [Quorum.get_final_quorum, h0], fun hne => ⟨?_, ?_⟩⟩
  · intro hlt
    simp only [Quorum.get_final_quorum, if_neg hne]
    rw [if_pos (by rw [hlen]; exact hlt)]
  · intro hge
    have hle : ceilPct 51 claims.length ≤ ceilPct 65 claims.length :=
      Nat.div_le_div_right (by omega)
    have hnum_le : ceilPct 51 claims.length ≤
        (btreeInsertAll (fun c => er c q.quorum_seed) id claims []).length := by
      rw [hlen]
      exact le_trans hle hge
    have hnotlt : ¬ (btreeInsertAll (fun c => er c q.quorum_seed) id claims
        []).length < ceilPct 65 claims.length := by
      rw [hlen]
      omega
    refine ⟨((btreeInsertAll (fun c => er c q.quorum_seed) id claims
      []).take (ceilPct 51 claims.length)).map Prod.snd, ?_, ?_, ?_, ?_, ?_⟩
    · simp only [Quorum.get_final_quorum, if_neg hne]
      rw [if_neg hnotlt]
      congr 2
      rw [List.map_map, ← List.map_take]
      rfl
    · rw [List.length_map, List.length_take, Nat.min_eq_left hnum_le]
    · intro c hc
      rcases List.mem_map.mp hc with ⟨p, hp, rfl⟩
      rcases btreeInsertAll_values (fun c => er c q.quorum_seed) id claims []
        p (List.take_subset _ _ hp) with h | ⟨a, ha, rfl⟩
      · cases h
      · exact ha
    · rw [btreeInsertAll_take_map_er]
      exact hsort.sublist (List.take_sublist _ _)
    · intro c hc
      have hmemkey : er c q.quorum_seed ∈
          (btreeInsertAll (fun c => er c q.quorum_seed) id claims []).map
            Prod.fst :=
        (btreeInsertAll_mem_keys (fun c => er c q.quorum_seed) id claims []
          (er c q.quorum_seed)).mpr
          (Or.inr (List.mem_map_of_mem (fun c => er c q.quorum_seed) hc))
      rw [← List.take_append_drop (ceilPct 51 claims.length)
        ((btreeInsertAll (fun c => er c q.quorum_seed) id claims []).map
          Prod.fst)] at hmemkey
      rcases List.mem_append.mp hmemkey with hin | hin
      · left
        rw [btreeInsertAll_take_map_er]
        exact hin
      · right
        intro d hd
        have hdkey : er d q.quorum_seed ∈
            ((btreeInsertAll (fun c => er c q.quorum_seed) id claims []).map
              Prod.fst).take (ceilPct 51 claims.length) := by
          rw [← btreeInsertAll_take_map_er]
          exact List.mem_map_of_mem (fun c => er c q.quorum_seed) hd
        have hsplit := hsort
        rw [← List.take_append_drop (ceilPct 51 claims.length)
          ((btreeInsertAll (fun c => er c q.quorum_seed) id claims []).map
            Prod.fst)] at hsplit
        exact (List.pairwise_append.mp hsplit).2.2 _ hdkey _ hin

/-- Witness for C7: three claims with distinct election results 3, 1, 2
under seed 1; the success branch selects the first ⌈0.51·3⌉ = 2 claims in
election order. -/
theorem get_final_quorum_spec_witness :
    ∃ sel : List Claim,
      Quorum.get_final_quorum exEr exQuorum [exClaimA, exClaimB, exClaimC] =
        .ok { exQuorum with master_pubkeys := sel.map Claim.publicKey } ∧
      sel.length = ceilPct 51 [exClaimA, exClaimB, exClaimC].length ∧
      (∀ c ∈ sel, c ∈ [exClaimA, exClaimB, exClaimC]) ∧
      (sel.map (fun c => exEr c exQuorum.quorum_seed)).Pairwise (· < ·) ∧
      (∀ c ∈ [exClaimA, exClaimB, exClaimC],
        exEr c exQuorum.quorum_seed ∈
          sel.map (fun c => exEr c exQuorum.quorum_seed) ∨
        ∀ d ∈ sel, exEr d exQuorum.quorum_seed < exEr c exQuorum.quorum_seed) :=
  ((get_final_quorum_spec exEr exQuorum [exClaimA, exClaimB, exClaimC]).2
    (by decide)).2 (by decide)
